import Mathlib

/-!
Verification of the Athena context-and-retrieval engine.

This file gives a shallow embedding of the core modules of the backend
(`app/core/context.py`, `app/core/bm25.py`, `app/core/rag.py`) and proves
the spec-level properties about them.

Modelling conventions:
  * `tiktoken` token counting is external; every context function is
    parameterized by an arbitrary counter `tok : String → Nat`.
  * The summarization LLM call never fails in the source (it falls back to a
    placeholder string), so it is modelled as a total oracle
    `summarize : List ChatMsg → String`.
  * Database state for one conversation is an explicit `ChatDB` value; the
    stored message list is kept in timestamp order (the order every SQL query
    in the source requests), and the serial `id` column is `StoredMsg.id`.
  * Python float scores (RRF, the `0.8` refill factor) are modelled as exact
    rationals.  For the `0.8 * history_budget` comparison this is exact: both
    sides differ from the float computation by less than `1/5`, which is the
    minimal gap between an integer and a multiple of `4/5`.
  * Fallible external calls (HTTP, vector store, relational store) return
    `Except Unit _`; raising `HTTPException` is modelled with `Except HTTPErr`.
-/

/-- Helper for `pySplit`: walk the characters, accumulating the current word
(reversed); whitespace flushes the word if non-empty. -/
def splitWsAux : List Char → List Char → List String
  | [], acc => if acc.isEmpty then [] else [⟨acc.reverse⟩]
  | c :: cs, acc =>
    if c.isWhitespace then
      if acc.isEmpty then splitWsAux cs [] else ⟨acc.reverse⟩ :: splitWsAux cs []
    else splitWsAux cs (c :: acc)

/-- Python `str.split()` with no argument: split on runs of whitespace and
drop empty pieces. -/
def pySplit (s : String) : List String := splitWsAux s.data []

/-- Python `str.lower()` (ASCII case folding, as every filename/query in the
source is compared after ASCII-style normalization). -/
def pyLower (s : String) : String := ⟨s.data.map Char.toLower⟩

/-- Python `str.replace(a, b)` for single-character `a`, `b`. -/
def replaceChar (a b : Char) (s : String) : String :=
  ⟨s.data.map fun c => if c = a then b else c⟩

/-- Python `sep.join(parts)`. -/
def joinWith (sep : String) : List String → String
  | [] => ""
  | [x] => x
  | x :: xs => x ++ sep ++ joinWith sep xs

/-! ## `app/core/context.py` -/

def TOTAL_BUDGET : Nat := 8192
def SYSTEM_BUDGET : Nat := 1000
def GENERATION_BUDGET : Nat := 1192
def PROTECT_LAST_N : Nat := 6

/-- `MAX_MESSAGE_TOKENS = TOTAL_BUDGET - SYSTEM_BUDGET - GENERATION_BUDGET - 500`. -/
def MAX_MESSAGE_TOKENS : Nat := TOTAL_BUDGET - SYSTEM_BUDGET - GENERATION_BUDGET - 500

/-- A `{"role": ..., "content": ...}` dict as passed to the model. -/
structure ChatMsg where
  role : String
  content : String
deriving DecidableEq, Repr

/-- A row of the `messages` table (the columns the core reads/writes).
The surrounding list is kept in `timestamp ASC` order, which for this table
coincides with insertion order; `id` is the serial integer column used by the
`id > summarized_up_to_id` comparison. -/
structure StoredMsg where
  id : Nat
  role : String
  content : String
  model_used : Option String
deriving DecidableEq, Repr

/-- The columns of the `conversations` row the context core touches. -/
structure ConvRow where
  token_count : Option Nat
  summary : Option String
  summarized_up_to_id : Option Nat
  message_count : Option Nat
deriving DecidableEq, Repr

/-- Relational state for one conversation: its `conversations` row (if the
conversation exists) and its messages in timestamp order.  `nextId` models the
serial-id sequence of the `messages` table. -/
structure ChatDB where
  conv : Option ConvRow
  msgs : List StoredMsg
  nextId : Nat
deriving DecidableEq, Repr

/-- `count_tokens`: content tokens plus 4 per-message overhead, accumulated
left to right. -/
def count_tokens (tok : String → Nat) (messages : List ChatMsg) : Nat :=
  messages.foldl (fun total m => total + tok m.content + 4) 0

def toChatMsg (m : StoredMsg) : ChatMsg := ⟨m.role, m.content⟩

/-- `history_budget = TOTAL_BUDGET - SYSTEM_BUDGET - GENERATION_BUDGET -
current_tokens - rag_tokens` (may be negative, hence `Int`). -/
def history_budget_of (tok : String → Nat) (current_message : String)
    (rag_tokens : Nat) : Int :=
  (TOTAL_BUDGET : Int) - (SYSTEM_BUDGET : Int) - (GENERATION_BUDGET : Int)
    - (tok current_message : Int) - (rag_tokens : Int)

/-- The `SELECT ... WHERE id > $2` recent-message query of the cached-summary
path, projected to role/content.  A SQL `NULL` bound (`summarized_up_to_id`
still unset) matches no rows. -/
def recent_of (db : ChatDB) (c : ConvRow) : List ChatMsg :=
  (db.msgs.filter fun m =>
      match c.summarized_up_to_id with
      | some upTo => decide (upTo < m.id)
      | none => false).map toChatMsg

/-- `_generate_and_cache_summary`: split off the last `PROTECT_LAST_N`
messages as protected, summarize the first half of the rest, persist the new
summary and `summarized_up_to_id`, and return summary + remainder + protected.
The second component is the `will_summarize` flag, the third the updated DB
state.  (`history_budget` is only logged by the source; kept for signature
fidelity.) -/
def generate_and_cache_summary (tok : String → Nat)
    (summarize : List ChatMsg → String) (db : ChatDB)
    (history_budget : Int) : List ChatMsg × Bool × ChatDB :=
  let _ := tok
  let _ := history_budget
  let all_messages := db.msgs
  let protected_msgs := all_messages.drop (all_messages.length - PROTECT_LAST_N)
  let trimmable := all_messages.take (all_messages.length - PROTECT_LAST_N)
  if trimmable.isEmpty then
    (protected_msgs.map toChatMsg, false, db)
  else
    let midpoint := max 1 (trimmable.length / 2)
    let to_summarize := trimmable.take midpoint
    let remaining := trimmable.drop midpoint
    let summary_text := summarize (to_summarize.map toChatMsg)
    let last_summarized_id := ((to_summarize.getLast?).map StoredMsg.id).getD 0
    let db' : ChatDB :=
      { db with conv := db.conv.map fun c =>
          { c with summary := some summary_text,
                   summarized_up_to_id := some last_summarized_id } }
    (⟨"system", "[Earlier in this conversation]: " ++ summary_text⟩ ::
       (remaining.map toChatMsg ++ protected_msgs.map toChatMsg),
     true, db')

/-- `get_managed_history`: the three-path budget state machine.  Returns
`(history, will_summarize)` plus the (possibly updated) DB state. -/
def get_managed_history (tok : String → Nat)
    (summarize : List ChatMsg → String) (db : ChatDB)
    (current_message : String) (rag_tokens : Nat) :
    List ChatMsg × Bool × ChatDB :=
  let history_budget := history_budget_of tok current_message rag_tokens
  if history_budget ≤ 0 then ([], false, db)
  else
    match db.conv with
    | none => ([], false, db)
    | some conv =>
      if (conv.token_count.getD 0 : Int) ≤ history_budget then
        (db.msgs.map toChatMsg, false, db)
      else
        match conv.summary with
        | some summary =>
          let recent := recent_of db conv
          if ((count_tokens tok recent : ℚ) > (history_budget : ℚ) * (8 / 10)) then
            generate_and_cache_summary tok summarize db history_budget
          else
            (⟨"system", "[Earlier in this conversation]: " ++ summary⟩ :: recent,
             false, db)
        | none => generate_and_cache_summary tok summarize db history_budget

def baseSystemPrompt : String :=
  "You are Athena, a personal AI assistant. You help the user learn, research, and build. Be concise, precise, and adapt your explanation depth to the conversation."

/-- `build_system_prompt`; a `None` or empty RAG block leaves the base prompt
alone (Python truthiness). -/
def build_system_prompt (rag_context : Option String) : String :=
  match rag_context with
  | some r => if r = "" then baseSystemPrompt else baseSystemPrompt ++ "\n\n" ++ r
  | none => baseSystemPrompt

/-- `count_tokens_text(rag_context) if rag_context else 0`. -/
def rag_tokens_of (tok : String → Nat) (rag_context : Option String) : Nat :=
  match rag_context with
  | some r => if r = "" then 0 else tok r
  | none => 0

/-- The `HTTPException(status_code=400, detail={...})` raised for an oversized
message. -/
structure HTTPErr where
  status_code : Nat
  error : String
  tokens : Nat
  maxTokens : Nat
  message : String
deriving DecidableEq, Repr

/-- `build_messages`: validate length, fetch managed history, assemble
`[system, ...history, user]`.  Returns `(messages, will_summarize,
total_tokens)` plus the DB state. -/
def build_messages (tok : String → Nat) (summarize : List ChatMsg → String)
    (db : ChatDB) (current_message : String) (rag_context : Option String) :
    Except HTTPErr (List ChatMsg × Bool × Nat × ChatDB) :=
  let current_tokens := tok current_message
  if MAX_MESSAGE_TOKENS < current_tokens then
    .error ⟨400, "message_too_long", current_tokens, MAX_MESSAGE_TOKENS,
      "Message too long — try splitting code and question into separate messages"⟩
  else
    let rag_tokens := rag_tokens_of tok rag_context
    let res := get_managed_history tok summarize db current_message rag_tokens
    let assembled :=
      ⟨"system", build_system_prompt rag_context⟩ :: (res.1 ++ [⟨"user", current_message⟩])
    .ok (assembled, res.2.1, count_tokens tok assembled, res.2.2)

/-- `save_message`: insert the message row, then bump `token_count` (by the
message's own token count), `message_count` and `last_active` on the
conversation row.  (`message_id` is a fresh uuid string in the source;
irrelevant to the claims, the serial `id` is modelled via `nextId`.) -/
def save_message (tok : String → Nat) (db : ChatDB) (role : String)
    (content : String) (model : Option String) : ChatDB :=
  let new_tokens := tok content
  { conv := db.conv.map fun c =>
      { c with token_count := some (c.token_count.getD 0 + new_tokens),
               message_count := some (c.message_count.getD 0 + 1) },
    msgs := db.msgs ++ [⟨db.nextId, role, content, model⟩],
    nextId := db.nextId + 1 }

/-! ## `app/core/bm25.py` -/

/-- A persisted/cached BM25 index: parallel `chunk_ids` and tokenized
`corpus`. -/
structure BmIdx where
  chunk_ids : List String
  corpus : List (List String)
deriving DecidableEq, Repr

/-- State of the bm25 module: the `bm25_indexes` table plus the process-wide
in-memory cache `_bm25_cache`. -/
structure BmStore where
  persisted : String → Option BmIdx
  cache : String → Option BmIdx

/-- `get_bm25_index`: return the cached entry if present, else load the row
from Postgres (empty index when no row exists) and populate the cache. -/
def get_bm25_index (st : BmStore) (document_id : String) : BmIdx × BmStore :=
  match st.cache document_id with
  | some entry => (entry, st)
  | none =>
    let entry : BmIdx :=
      match st.persisted document_id with
      | some row => row
      | none => ⟨[], []⟩
    (entry,
     { st with cache := fun d => if d = document_id then some entry else st.cache d })

/-- `invalidate_bm25_index`: drop the in-memory cache entry, if any. -/
def invalidate_bm25_index (st : BmStore) (document_id : String) : BmStore :=
  { st with cache := fun d => if d = document_id then none else st.cache d }

/-- Python `text.lower().split()` chunk tokenization. -/
def bm25Tokenize (text : String) : List String :=
  pySplit (pyLower text)

/-- `build_bm25_index`: tokenize, upsert the `(chunk_ids, corpus)` row
(`ON CONFLICT ... DO UPDATE` replaces any prior index), then invalidate the
cache entry. -/
def build_bm25_index (st : BmStore) (document_id : String)
    (chunk_ids : List String) (texts : List String) : BmStore :=
  let corpus := texts.map bm25Tokenize
  let st' : BmStore :=
    { st with persisted := fun d =>
        if d = document_id then some ⟨chunk_ids, corpus⟩ else st.persisted d }
  invalidate_bm25_index st' document_id

/-! ## `app/core/rag.py` (and `normalize_filename` from `ingestion.py`) -/

/-- Strip `f` from both ends of a string (Python `str.strip(chars)`). -/
def stripChars (f : Char → Bool) (s : String) : String :=
  ⟨((s.toList.dropWhile f).reverse.dropWhile f).reverse⟩

/-- Index of the last occurrence of `c`, or `-1` (Python `str.rfind`). -/
def lastIndexOf (c : Char) (l : List Char) : Int :=
  l.enum.foldl (fun acc p => if p.2 = c then (p.1 : Int) else acc) (-1)

/-- `os.path.splitext(p)[0]`: cut at the last dot after the last separator,
unless every character between them is itself a dot (dotfiles keep their
name). -/
def splitextRoot (p : String) : String :=
  let chars := p.toList
  let sepIdx := lastIndexOf '/' chars
  let dotIdx := lastIndexOf '.' chars
  if sepIdx < dotIdx then
    let hasNonDot := chars.enum.any fun q =>
      decide (sepIdx < (q.1 : Int)) && decide ((q.1 : Int) < dotIdx) && (q.2 ≠ '.')
    if hasNonDot then ⟨chars.take dotIdx.toNat⟩ else p
  else p

/-- `normalize_filename` from `ingestion.py`: strip extension, lowercase,
strip dots and whitespace, turn `_`/`-` into spaces, collapse whitespace. -/
def normalize_filename (filename : String) : String :=
  if filename = "" ∨ stripChars Char.isWhitespace filename = "" then ""
  else
    let base := splitextRoot filename
    let name := stripChars Char.isWhitespace (stripChars (fun c => c = '.') (pyLower base))
    let name := replaceChar '-' ' ' (replaceChar '_' ' ' name)
    joinWith " " (pySplit name)

/-- A `documents` row as read by `find_referenced_document` (`filename` is a
nullable column). -/
structure DocRow where
  document_id : String
  filename : Option String
deriving DecidableEq, Repr

/-- A Qdrant hit; `chunk_id` is `hit.get("payload", {}).get("chunk_id")`,
which may be missing. -/
structure QHit where
  chunk_id : Option String
deriving DecidableEq, Repr

/-- The three filter-dict shapes `retrieve` builds for the vector store. -/
inductive QFilter where
  | userOnly (user_id : Int)
  | oneDoc (user_id : Int) (document_id : String)
  | anyDocs (user_id : Int) (document_ids : List String)
deriving DecidableEq, Repr

/-- A row of the chunk-resolution join in `retrieve`. -/
structure ChunkRow where
  chunk_id : String
  text : String
  filename : String
  chunk_index : Nat
  document_id : String
deriving DecidableEq, Repr

/-- A `RetrievalResult` dict as returned by `retrieve`. -/
structure Source where
  chunk_id : String
  text : String
  filename : String
  chunk_index : Nat
  document_id : String
  score : ℚ
deriving DecidableEq, Repr

/-- The external collaborators of `retrieve`, as oracles.  `Vec` is the opaque
embedding-vector type.  `fuzzMatch` models `rapidfuzz` `fuzz.partial_` scoring
(a pure similarity score in `0..100`); `bm25_scores` models
`BM25Okapi(corpus).get_scores(tokens)`. -/
structure RagEnv (Vec : Type) where
  rag_top_k : Nat
  embed : String → Except Unit Vec
  qdrant_search : Vec → Nat → QFilter → Except Unit (List QHit)
  fetch_docs : List String → Int → Except Unit (List DocRow)
  fuzzMatch : String → String → Nat
  load_bm25 : String → Except Unit BmIdx
  bm25_scores : List (List String) → List String → List ℚ
  fetch_chunks : List String → Int → Except Unit (List ChunkRow)

/-- The external calls `retrieve` issues, in order. -/
inductive RagCall where
  | embedText (text : String)
  | fetchDocs (document_ids : List String) (user_id : Int)
  | denseSearch (limit : Nat) (filt : QFilter)
  | sparseSearch (top_k : Nat) (document_ids : List String)
  | fetchChunks (chunk_ids : List String)
deriving DecidableEq, Repr

/-- Stable descending insertion by key: later elements are placed after
earlier elements of equal key, exactly like Python's stable
`sorted(..., key=..., reverse=True)`. -/
def insertDescBy {α : Type} (key : α → ℚ) (x : α) : List α → List α
  | [] => [x]
  | y :: ys => if key x ≤ key y then y :: insertDescBy key x ys else x :: y :: ys

/-- Stable sort, descending by `key`. -/
def sortDescBy {α : Type} (key : α → ℚ) (l : List α) : List α :=
  l.foldl (fun acc x => insertDescBy key x acc) []

/-- The loop body of `find_referenced_document`: skip documents with an empty
normalized filename or no word shared with the query, otherwise keep the
first-encountered best fuzzy score above 80. -/
def frd_step {Vec : Type} (env : RagEnv Vec) (query_words : List String)
    (query_lower : String) (acc : Option String × Nat) (doc : DocRow) :
    Option String × Nat :=
  let normalized := normalize_filename (doc.filename.getD "")
  if normalized = "" then acc
  else if query_words.any (fun w => (pySplit normalized).contains w) then
    let score := env.fuzzMatch normalized query_lower
    if 80 < score ∧ acc.2 < score then (some doc.document_id, score) else acc
  else acc

/-- `find_referenced_document`: among the user's completed documents in
scope, pick the (first-encountered) best filename fuzzily matching the query,
requiring at least one shared word and a score above 80. -/
def find_referenced_document {Vec : Type} (env : RagEnv Vec) (query : String)
    (user_id : Int) (document_ids : List String) :
    Except Unit (Option String) :=
  match env.fetch_docs document_ids user_id with
  | .error e => .error e
  | .ok docs =>
    if docs.isEmpty then .ok none
    else
      let query_lower := pyLower query
      let query_words := pySplit query_lower
      let best := docs.foldl (frd_step env query_words query_lower)
        ((none : Option String), 0)
      .ok best.1

/-- `_bm_25_search`: merge the per-document indexes in scope, score the
whole merged corpus against the lowercased whitespace-split query, keep the
strictly positive scores sorted descending, truncate to `top_k`. -/
def bm25_search {Vec : Type} (env : RagEnv Vec) (query : String)
    (document_ids : List String) (top_k : Nat) :
    Except Unit (List (String × ℚ)) :=
  if document_ids.isEmpty then .ok []
  else do
    let idxs ← document_ids.mapM env.load_bm25
    let all_chunk_ids := (idxs.map BmIdx.chunk_ids).flatten
    let all_corpus := (idxs.map BmIdx.corpus).flatten
    if all_corpus.isEmpty then return []
    else
      let scores := env.bm25_scores all_corpus (pySplit (pyLower query))
      let results := (all_chunk_ids.zip scores).filter fun p => 0 < p.2
      return (sortDescBy (fun p => p.2) results).take top_k

/-- Insert-or-accumulate into an association list, keeping first-insertion
order (Python dict semantics). -/
def rrfUpsert (l : List (String × ℚ)) (id : String) (v : ℚ) :
    List (String × ℚ) :=
  match l with
  | [] => [(id, v)]
  | (a, b) :: t => if a = id then (a, b + v) :: t else (a, b) :: rrfUpsert t id v

/-- The RRF score dict: each hit at 0-based rank `rank` contributes
`1 / (k + rank + 1)`; vector hits with a missing or empty `chunk_id` are
skipped (their rank is still consumed). -/
def rrf_scores (vector_hits : List QHit) (bm25_hits : List (String × ℚ))
    (k : Nat) : List (String × ℚ) :=
  let s1 := vector_hits.enum.foldl (fun acc p =>
    match p.2.chunk_id with
    | none => acc
    | some cid =>
      if cid = "" then acc
      else rrfUpsert acc cid (1 / ((k : ℚ) + (p.1 : ℚ) + 1))) []
  bm25_hits.enum.foldl
    (fun acc p => rrfUpsert acc p.2.1 (1 / ((k : ℚ) + (p.1 : ℚ) + 1))) s1

/-- `reciprocal_rank_fusion`: chunk ids ordered by combined RRF score,
descending, ties kept in first-encounter order. -/
def reciprocal_rank_fusion (vector_hits : List QHit)
    (bm25_hits : List (String × ℚ)) (k : Nat) : List String :=
  (sortDescBy (fun p => p.2) (rrf_scores vector_hits bm25_hits k)).map Prod.fst

/-- `search_ids = [referenced_id] if referenced_id else doc_ids`. -/
def search_ids_of (referenced_id : Option String) (doc_ids : List String) :
    List String :=
  match referenced_id with
  | some rid => [rid]
  | none => doc_ids

/-- The filter dict built for the document-scoped branch
(`len(search_ids) == 1` collapses to an equality match). -/
def search_filter_of (user_id : Int) (search_ids : List String) : QFilter :=
  match search_ids with
  | [sid] => .oneDoc user_id sid
  | _ => .anyDocs user_id search_ids

/-- The final source-assembly loop: resolve each ranked id through the chunk
rows (`chunk_map`, last row wins as in a dict comprehension), dropping ids
with no row, preserving fused order. -/
def resolve_sources (ranked_ids : List String) (rows : List ChunkRow) :
    List Source :=
  ranked_ids.filterMap fun cid =>
    ((rows.filter fun r => r.chunk_id = cid).getLast?).map fun row =>
      ⟨cid, row.text, row.filename, row.chunk_index, row.document_id, 0⟩

/-- `retrieve`, returning the sources together with the trace of external
calls issued (both concurrently-gathered searches are recorded before either
result is inspected).  Any oracle failure yields the empty source list — the
whole body sits in a `try/except` in the source.  In the `search_all` branch
the source keeps hits with a missing `chunk_id` as `None` entries of
`ranked_ids`; they can never resolve to a row, so they are dropped here at
extraction (the `if not ranked_ids` emptiness test is taken on the raw hit
list, as in the source). -/
def retrieve {Vec : Type} (env : RagEnv Vec) (query : String) (user_id : Int)
    (document_ids : Option (List String)) (top_k? : Option Nat)
    (search_all : Bool) : List Source × List RagCall :=
  let top_k := top_k?.getD env.rag_top_k
  let doc_ids := document_ids.getD []
  if doc_ids.isEmpty ∧ search_all = false then ([], [])
  else
    match env.embed query with
    | .error _ => ([], [.embedText query])
    | .ok vector =>
      if doc_ids.isEmpty then
        -- search_all = true and no attached documents: pure vector search
        let filt := QFilter.userOnly user_id
        let t1 : List RagCall := [.embedText query, .denseSearch top_k filt]
        match env.qdrant_search vector top_k filt with
        | .error _ => ([], t1)
        | .ok vector_hits =>
          if (vector_hits.map QHit.chunk_id).isEmpty then ([], t1)
          else
            let ids := (vector_hits.map QHit.chunk_id).filterMap id
            let t2 := t1 ++ [.fetchChunks ids]
            match env.fetch_chunks ids user_id with
            | .error _ => ([], t2)
            | .ok rows => (resolve_sources ids rows, t2)
      else
        match find_referenced_document env query user_id doc_ids with
        | .error _ => ([], [.embedText query, .fetchDocs doc_ids user_id])
        | .ok referenced_id =>
          let search_ids := search_ids_of referenced_id doc_ids
          let search_filter := search_filter_of user_id search_ids
          let t2 : List RagCall :=
            [.embedText query, .fetchDocs doc_ids user_id,
             .denseSearch (top_k * 3) search_filter,
             .sparseSearch (top_k * 3) search_ids]
          match env.qdrant_search vector (top_k * 3) search_filter,
                bm25_search env query search_ids (top_k * 3) with
          | .ok vector_hits, .ok bm25_hits =>
            let ranked_ids := (reciprocal_rank_fusion vector_hits bm25_hits 60).take top_k
            if ranked_ids.isEmpty then ([], t2)
            else
              let t3 := t2 ++ [.fetchChunks ranked_ids]
              match env.fetch_chunks ranked_ids user_id with
              | .error _ => ([], t3)
              | .ok rows => (resolve_sources ranked_ids rows, t3)
          | _, _ => ([], t2)

/-! ## Theorems -/

def bmStoreEmpty : BmStore := ⟨fun _ => none, fun _ => none⟩

/-- C9: after `build(documentId, chunkIds, texts)`, a subsequent
`load(documentId)` returns exactly `(chunkIds, corpus)` with `corpus` each
text lowercased and whitespace-split, regardless of any prior persisted index
or stale cache entry for that id; and `load` of a never-built id returns the
empty index rather than an error. -/
theorem C9_build_load_round_trip (st : BmStore) (document_id : String)
    (chunk_ids : List String) (texts : List String)
    (st₀ : BmStore) (id₀ : String)
    (hp : st₀.persisted id₀ = none) (hc : st₀.cache id₀ = none) :
    (get_bm25_index (build_bm25_index st document_id chunk_ids texts)
        document_id).1 = ⟨chunk_ids, texts.map bm25Tokenize⟩ ∧
    (get_bm25_index st₀ id₀).1 = ⟨[], []⟩ := by
  constructor
  · simp [get_bm25_index, build_bm25_index, invalidate_bm25_index]
  · simp [get_bm25_index, hp, hc]

theorem C9_witness :
    (get_bm25_index
        (build_bm25_index bmStoreEmpty "doc1" ["c1", "c2"] ["Hello World", "foo BAR"])
        "doc1").1 = ⟨["c1", "c2"], [["hello", "world"], ["foo", "bar"]]⟩ ∧
    (get_bm25_index bmStoreEmpty "doc9").1 = ⟨[], []⟩ :=
  C9_build_load_round_trip bmStoreEmpty "doc1" ["c1", "c2"]
    ["Hello World", "foo BAR"] bmStoreEmpty "doc9" rfl rfl

/-- C4: a current message whose token count exceeds
`MAX_MESSAGE_TOKENS = 8192 - 1000 - 1192 - 500 = 5500` makes `build_messages`
fail with the HTTP 400 `message_too_long` validation error; the result is the
same for every DB state and every summarization oracle, so no summarization
call is made and no conversation state is read or changed. -/
theorem C4_message_too_long (tok : String → Nat)
    (summarize : List ChatMsg → String) (db : ChatDB) (current_message : String)
    (rag_context : Option String)
    (h : MAX_MESSAGE_TOKENS < tok current_message) :
    MAX_MESSAGE_TOKENS = 5500 ∧
    build_messages tok summarize db current_message rag_context =
      .error ⟨400, "message_too_long", tok current_message, MAX_MESSAGE_TOKENS,
        "Message too long — try splitting code and question into separate messages"⟩ := by
  refine ⟨rfl, ?_⟩
  simp [build_messages, h]

theorem C4_witness :
    build_messages (fun s => 5501 * s.length) (fun _ => "") ⟨none, [], 0⟩ "x" none =
      .error ⟨400, "message_too_long", 5501, 5500,
        "Message too long — try splitting code and question into separate messages"⟩ :=
  (C4_message_too_long (fun s => 5501 * s.length) (fun _ => "") ⟨none, [], 0⟩
    "x" none (by decide)).2

def rrfExampleVector : List QHit := [⟨some "A"⟩, ⟨some "B"⟩, ⟨some "C"⟩]
def rrfExampleBm25 : List (String × ℚ) := [("B", 5), ("A", 3), ("D", 1)]

unseal Rat.add Rat.mul Rat.inv in
/-- C3 counterexample: on the claim's own example (vector ranks `[A,B,C]`,
BM25 ranks `[B,A,D]`, `k = 60`), `D` sits at 0-based rank 2 of the BM25 list,
so its score is `1/63` (not `1/62`), it ties with `C`, and the stable
first-encounter tie-break puts `C` before `D`: the fused order is
`[A,B,C,D]`, not `[A,B,D,C]`. -/
theorem C3_counterexample :
    (rrf_scores rrfExampleVector rrfExampleBm25 60).lookup "D" = some (1 / 63) ∧
    ((1 : ℚ) / 63 ≠ 1 / 62) ∧
    reciprocal_rank_fusion rrfExampleVector rrfExampleBm25 60 = ["A", "B", "C", "D"] ∧
    reciprocal_rank_fusion rrfExampleVector rrfExampleBm25 60 ≠ ["A", "B", "D", "C"] := by
  decide

unseal Rat.add Rat.mul Rat.inv in
/-- C3 amended: RankFusion assigns each id the sum over the lists containing
it of `1/(k + rank + 1)` (0-based rank), sorts descending with ties broken by
stable first-encounter order; on the example, score(A) = score(B) =
1/61 + 1/62, score(C) = score(D) = 1/63, and the fused order is
`[A, B, C, D]`. -/
theorem C3_amended :
    rrf_scores rrfExampleVector rrfExampleBm25 60 =
      [("A", 1 / 61 + 1 / 62), ("B", 1 / 62 + 1 / 61), ("C", 1 / 63), ("D", 1 / 63)] ∧
    reciprocal_rank_fusion rrfExampleVector rrfExampleBm25 60 = ["A", "B", "C", "D"] := by
  decide

/-- C1: for a conversation whose cached `token_count` fits a positive history
budget, `build_messages` takes the fast path: the returned history is the full
stored message sequence, identical in role and content and in timestamp
order, `will_summarize` is `false`, and no state is written. -/
theorem C1_fast_path (tok : String → Nat) (summarize : List ChatMsg → String)
    (db : ChatDB) (c : ConvRow) (current_message : String)
    (rag_context : Option String)
    (hconv : db.conv = some c)
    (hlen : tok current_message ≤ MAX_MESSAGE_TOKENS)
    (hbudget : 0 < history_budget_of tok current_message (rag_tokens_of tok rag_context))
    (hfit : (c.token_count.getD 0 : Int)
              ≤ history_budget_of tok current_message (rag_tokens_of tok rag_context)) :
    get_managed_history tok summarize db current_message (rag_tokens_of tok rag_context)
        = (db.msgs.map toChatMsg, false, db) ∧
    build_messages tok summarize db current_message rag_context =
      .ok (⟨"system", build_system_prompt rag_context⟩ ::
             (db.msgs.map toChatMsg ++ [⟨"user", current_message⟩]),
           false,
           count_tokens tok (⟨"system", build_system_prompt rag_context⟩ ::
             (db.msgs.map toChatMsg ++ [⟨"user", current_message⟩])),
           db) := by
  have h1 : get_managed_history tok summarize db current_message
      (rag_tokens_of tok rag_context) = (db.msgs.map toChatMsg, false, db) := by
    unfold get_managed_history
    rw [hconv]
    simp [not_le.mpr hbudget, hfit]
  refine ⟨h1, ?_⟩
  unfold build_messages
  rw [if_neg (not_lt.mpr hlen)]
  simp [h1]

theorem C1_witness :
    get_managed_history (fun _ => 1) (fun _ => "s")
        ⟨some ⟨some 2, none, none, some 1⟩, [⟨1, "user", "hi", none⟩], 2⟩ "yo"
        (rag_tokens_of (fun _ => 1) none)
      = ([⟨"user", "hi"⟩], false,
         ⟨some ⟨some 2, none, none, some 1⟩, [⟨1, "user", "hi", none⟩], 2⟩) ∧
    build_messages (fun _ => 1) (fun _ => "s")
        ⟨some ⟨some 2, none, none, some 1⟩, [⟨1, "user", "hi", none⟩], 2⟩ "yo" none =
      .ok ([⟨"system", baseSystemPrompt⟩, ⟨"user", "hi"⟩, ⟨"user", "yo"⟩], false, 15,
           ⟨some ⟨some 2, none, none, some 1⟩, [⟨1, "user", "hi", none⟩], 2⟩) :=
  C1_fast_path (fun _ => 1) (fun _ => "s")
    ⟨some ⟨some 2, none, none, some 1⟩, [⟨1, "user", "hi", none⟩], 2⟩
    ⟨some 2, none, none, some 1⟩ "yo" none rfl (by decide) (by decide) (by decide)

/-- C10: a conversation id absent from the store yields the empty history
with `will_summarize = false` rather than an error, and so does an existing,
well-maintained conversation with a positive budget and no stored messages;
`build_messages` then succeeds and returns exactly
`[systemMessage, userMessage(current)]`. -/
theorem C10_empty_history (tok : String → Nat)
    (summarize : List ChatMsg → String) (db : ChatDB) (current_message : String)
    (rag_context : Option String)
    (hlen : tok current_message ≤ MAX_MESSAGE_TOKENS) :
    (db.conv = none →
      get_managed_history tok summarize db current_message (rag_tokens_of tok rag_context)
          = ([], false, db) ∧
      build_messages tok summarize db current_message rag_context =
        .ok ([⟨"system", build_system_prompt rag_context⟩, ⟨"user", current_message⟩],
             false,
             count_tokens tok
               [⟨"system", build_system_prompt rag_context⟩, ⟨"user", current_message⟩],
             db)) ∧
    (∀ c, db.conv = some c → db.msgs = [] →
      0 < history_budget_of tok current_message (rag_tokens_of tok rag_context) →
      (c.token_count.getD 0 = 0 ∨ c.summary = none) →
      get_managed_history tok summarize db current_message (rag_tokens_of tok rag_context)
          = ([], false, db) ∧
      build_messages tok summarize db current_message rag_context =
        .ok ([⟨"system", build_system_prompt rag_context⟩, ⟨"user", current_message⟩],
             false,
             count_tokens tok
               [⟨"system", build_system_prompt rag_context⟩, ⟨"user", current_message⟩],
             db)) := by
  have hbm : get_managed_history tok summarize db current_message
        (rag_tokens_of tok rag_context) = ([], false, db) →
      build_messages tok summarize db current_message rag_context =
        .ok ([⟨"system", build_system_prompt rag_context⟩, ⟨"user", current_message⟩],
             false,
             count_tokens tok
               [⟨"system", build_system_prompt rag_context⟩, ⟨"user", current_message⟩],
             db) := by
    intro h1
    unfold build_messages
    rw [if_neg (not_lt.mpr hlen)]
    simp [h1]
  constructor
  · intro hnone
    have h1 : get_managed_history tok summarize db current_message
        (rag_tokens_of tok rag_context) = ([], false, db) := by
      by_cases hb : history_budget_of tok current_message (rag_tokens_of tok rag_context) ≤ 0 <;>
        simp [get_managed_history, hnone, hb]
    exact ⟨h1, hbm h1⟩
  · intro c hc hmsgs hb hcase
    have h1 : get_managed_history tok summarize db current_message
        (rag_tokens_of tok rag_context) = ([], false, db) := by
      rcases hcase with h0 | hsum
      · have hfit : ((c.token_count.getD 0 : Nat) : Int)
            ≤ history_budget_of tok current_message (rag_tokens_of tok rag_context) := by
          rw [h0]
          exact_mod_cast le_of_lt hb
        simp [get_managed_history, hc, not_le.mpr hb, hfit, hmsgs]
      · by_cases hfit : ((c.token_count.getD 0 : Nat) : Int)
            ≤ history_budget_of tok current_message (rag_tokens_of tok rag_context)
        · simp [get_managed_history, hc, not_le.mpr hb, hfit, hmsgs]
        · simp [get_managed_history, hc, not_le.mpr hb, hfit, hsum, hmsgs,
            generate_and_cache_summary]
    exact ⟨h1, hbm h1⟩

theorem C10_witness :
    get_managed_history (fun _ => 1) (fun _ => "s") ⟨none, [], 0⟩ "yo"
        (rag_tokens_of (fun _ => 1) none) = ([], false, ⟨none, [], 0⟩) ∧
    build_messages (fun _ => 1) (fun _ => "s") ⟨none, [], 0⟩ "yo" none =
      .ok ([⟨"system", baseSystemPrompt⟩, ⟨"user", "yo"⟩], false, 10, ⟨none, [], 0⟩) :=
  (C10_empty_history (fun _ => 1) (fun _ => "s") ⟨none, [], 0⟩ "yo" none
    (by decide)).1 rfl

/-- Sum of the stored per-message token costs of a message list. -/
def tokenSum (tok : String → Nat) (msgs : List StoredMsg) : Nat :=
  (msgs.map fun m => tok m.content).sum

lemma save_message_fold_conv (tok : String → Nat)
    (ops : List (String × String × Option String)) :
    ∀ (db : ChatDB) (c : ConvRow), db.conv = some c →
      c.token_count = some (tokenSum tok db.msgs) →
      c.message_count = some db.msgs.length →
      ∃ c', (ops.foldl (fun d op => save_message tok d op.1 op.2.1 op.2.2) db).conv
              = some c' ∧
        c'.token_count = some (tokenSum tok
          (ops.foldl (fun d op => save_message tok d op.1 op.2.1 op.2.2) db).msgs) ∧
        c'.message_count = some
          (ops.foldl (fun d op => save_message tok d op.1 op.2.1 op.2.2) db).msgs.length := by
  induction ops with
  | nil =>
    intro db c hc h1 h2
    exact ⟨c, hc, h1, h2⟩
  | cons op rest ih =>
    intro db c hc h1 h2
    simp only [List.foldl_cons]
    apply ih (save_message tok db op.1 op.2.1 op.2.2)
      ⟨some (c.token_count.getD 0 + tok op.2.1), c.summary, c.summarized_up_to_id,
       some (c.message_count.getD 0 + 1)⟩
    · simp [save_message, hc]
    · simp [save_message, hc, h1, h2, tokenSum]
    · simp [save_message, hc, h1, h2]

/-- C5: `save_message` is the single write path keeping the cached counters
exact: each append bumps `token_count` by exactly `countText(content)` of the
appended message and `message_count` by exactly one, and therefore after any
sequence of appends starting from a fresh conversation the stored
`token_count` equals the sum over all stored messages of `countText(content)`
(and `message_count` equals the number of stored messages). -/
theorem C5_token_count_invariant (tok : String → Nat)
    (ops : List (String × String × Option String)) (db₀ : ChatDB) (c₀ : ConvRow)
    (hconv : db₀.conv = some c₀) (htc : c₀.token_count = some 0)
    (hmc : c₀.message_count = some 0) (hmsgs : db₀.msgs = []) :
    (∀ (db : ChatDB) (role content : String) (model : Option String),
        (save_message tok db role content model).conv.map ConvRow.token_count
          = db.conv.map (fun c => some (c.token_count.getD 0 + tok content)) ∧
        (save_message tok db role content model).conv.map ConvRow.message_count
          = db.conv.map (fun c => some (c.message_count.getD 0 + 1)) ∧
        (save_message tok db role content model).msgs
          = db.msgs ++ [⟨db.nextId, role, content, model⟩]) ∧
    (∃ c', (ops.foldl (fun d op => save_message tok d op.1 op.2.1 op.2.2) db₀).conv
             = some c' ∧
       c'.token_count = some (tokenSum tok
         (ops.foldl (fun d op => save_message tok d op.1 op.2.1 op.2.2) db₀).msgs) ∧
       c'.message_count = some
         (ops.foldl (fun d op => save_message tok d op.1 op.2.1 op.2.2) db₀).msgs.length) := by
  constructor
  · intro db role content model
    obtain ⟨conv?, msgs, nid⟩ := db
    cases conv? <;> simp [save_message]
  · apply save_message_fold_conv tok ops db₀ c₀ hconv
    · rw [htc, hmsgs]; rfl
    · rw [hmc, hmsgs]; rfl

theorem C5_witness :
    (∃ c', ([("user", "hi", (none : Option String)), ("assistant", "hey", some "m")].foldl
        (fun d op => save_message (fun s => s.length) d op.1 op.2.1 op.2.2)
        ⟨some ⟨some 0, none, none, some 0⟩, [], 1⟩).conv = some c' ∧
      c'.token_count = some (tokenSum (fun s => s.length)
        ([("user", "hi", (none : Option String)), ("assistant", "hey", some "m")].foldl
          (fun d op => save_message (fun s => s.length) d op.1 op.2.1 op.2.2)
          ⟨some ⟨some 0, none, none, some 0⟩, [], 1⟩).msgs) ∧
      c'.message_count = some
        ([("user", "hi", (none : Option String)), ("assistant", "hey", some "m")].foldl
          (fun d op => save_message (fun s => s.length) d op.1 op.2.1 op.2.2)
          ⟨some ⟨some 0, none, none, some 0⟩, [], 1⟩).msgs.length) :=
  (C5_token_count_invariant (fun s => s.length)
    [("user", "hi", none), ("assistant", "hey", some "m")]
    ⟨some ⟨some 0, none, none, some 0⟩, [], 1⟩ ⟨some 0, none, none, some 0⟩
    rfl rfl rfl rfl).2

/-- C7: `retrieve` is all-or-nothing and total: with an empty effective scope
(no documents and `search_all` false) it returns empty immediately with no
external calls; and a failure of the embedding call, of either search branch
(discarding the surviving branch's results), or of the chunk-resolution read
makes the whole call return the empty list. -/
theorem C7_retrieve_all_or_nothing {Vec : Type} (env : RagEnv Vec)
    (query : String) (user_id : Int) (document_ids : Option (List String))
    (top_k? : Option Nat) (search_all : Bool) :
    ((document_ids.getD []).isEmpty = true → search_all = false →
        retrieve env query user_id document_ids top_k? search_all = ([], [])) ∧
    (env.embed query = .error () →
        (retrieve env query user_id document_ids top_k? search_all).1 = []) ∧
    (∀ doc_ids vec, document_ids = some doc_ids → doc_ids.isEmpty = false →
        env.embed query = .ok vec →
        find_referenced_document env query user_id doc_ids = .error () →
        (retrieve env query user_id document_ids top_k? search_all).1 = []) ∧
    (∀ doc_ids vec ref vector_hits, document_ids = some doc_ids →
        doc_ids.isEmpty = false → env.embed query = .ok vec →
        find_referenced_document env query user_id doc_ids = .ok ref →
        env.qdrant_search vec ((top_k?.getD env.rag_top_k) * 3)
            (search_filter_of user_id (search_ids_of ref doc_ids)) = .ok vector_hits →
        bm25_search env query (search_ids_of ref doc_ids)
            ((top_k?.getD env.rag_top_k) * 3) = .error () →
        (retrieve env query user_id document_ids top_k? search_all).1 = []) ∧
    (∀ doc_ids vec ref bm25_hits, document_ids = some doc_ids →
        doc_ids.isEmpty = false → env.embed query = .ok vec →
        find_referenced_document env query user_id doc_ids = .ok ref →
        env.qdrant_search vec ((top_k?.getD env.rag_top_k) * 3)
            (search_filter_of user_id (search_ids_of ref doc_ids)) = .error () →
        bm25_search env query (search_ids_of ref doc_ids)
            ((top_k?.getD env.rag_top_k) * 3) = .ok bm25_hits →
        (retrieve env query user_id document_ids top_k? search_all).1 = []) ∧
    (∀ doc_ids vec ref vector_hits bm25_hits, document_ids = some doc_ids →
        doc_ids.isEmpty = false → env.embed query = .ok vec →
        find_referenced_document env query user_id doc_ids = .ok ref →
        env.qdrant_search vec ((top_k?.getD env.rag_top_k) * 3)
            (search_filter_of user_id (search_ids_of ref doc_ids)) = .ok vector_hits →
        bm25_search env query (search_ids_of ref doc_ids)
            ((top_k?.getD env.rag_top_k) * 3) = .ok bm25_hits →
        env.fetch_chunks ((reciprocal_rank_fusion vector_hits bm25_hits 60).take
            (top_k?.getD env.rag_top_k)) user_id = .error () →
        (retrieve env query user_id document_ids top_k? search_all).1 = []) ∧
    (∀ vec, (document_ids.getD []).isEmpty = true → search_all = true →
        env.embed query = .ok vec →
        env.qdrant_search vec (top_k?.getD env.rag_top_k)
            (QFilter.userOnly user_id) = .error () →
        (retrieve env query user_id document_ids top_k? search_all).1 = []) ∧
    (∀ vec vector_hits, (document_ids.getD []).isEmpty = true → search_all = true →
        env.embed query = .ok vec →
        env.qdrant_search vec (top_k?.getD env.rag_top_k)
            (QFilter.userOnly user_id) = .ok vector_hits →
        env.fetch_chunks (vector_hits.filterMap QHit.chunk_id) user_id
            = .error () →
        (retrieve env query user_id document_ids top_k? search_all).1 = []) := by
  refine ⟨?_, ?_, ?_, ?_, ?_, ?_, ?_, ?_⟩
  · intro hempty hsa
    simp [retrieve, hempty, hsa]
  · intro hembed
    unfold retrieve
    by_cases hscope : (document_ids.getD []).isEmpty = true ∧ search_all = false
    · simp [hscope.1, hscope.2]
    · simp only [hembed]
      split <;> simp
  · intro doc_ids vec hdoc hni hembed href
    subst hdoc
    simp [retrieve, hni, hembed, href]
  · intro doc_ids vec ref vector_hits hdoc hni hembed href hq hbm
    subst hdoc
    simp [retrieve, hni, hembed, href, hq, hbm]
  · intro doc_ids vec ref bm25_hits hdoc hni hembed href hq hbm
    subst hdoc
    simp [retrieve, hni, hembed, href, hq, hbm]
  · intro doc_ids vec ref vector_hits bm25_hits hdoc hni hembed href hq hbm hfc
    subst hdoc
    by_cases hne : ((reciprocal_rank_fusion vector_hits bm25_hits 60).take
        (top_k?.getD env.rag_top_k)).isEmpty = true
    · simp [retrieve, hni, hembed, href, hq, hbm, hne]
    · simp [retrieve, hni, hembed, href, hq, hbm, hne, hfc]
  · intro vec hempty hsa hembed hq
    unfold retrieve
    simp [hempty, hsa, hembed, hq]
  · intro vec vector_hits hempty hsa hembed hq hfc
    unfold retrieve
    by_cases hids : (vector_hits.map QHit.chunk_id).isEmpty = true
    · simp [hempty, hsa, hembed, hq, hids]
    · simp [hempty, hsa, hembed, hq, hids, hfc]

def envC7 : RagEnv Unit :=
  ⟨2, fun _ => .ok (), fun _ _ _ => .ok [⟨some "c1"⟩], fun _ _ => .ok [],
   fun _ _ => 0, fun _ => .error (), fun _ _ => [], fun _ _ => .ok []⟩

theorem C7_witness :
    (retrieve envC7 "q" 1 (some ["d1"]) none false).1 = [] :=
  (C7_retrieve_all_or_nothing envC7 "q" 1 (some ["d1"]) none false).2.2.2.1
    ["d1"] () none [⟨some "c1"⟩] rfl rfl rfl rfl rfl rfl

def envC6 : RagEnv Unit :=
  ⟨5, fun _ => .ok (), fun _ _ _ => .ok [], fun _ _ => .ok [],
   fun _ _ => 0, fun _ => .ok ⟨[], []⟩, fun _ _ => [], fun _ _ => .ok []⟩

/-- C6 counterexample: with `search_all = true` and an empty document scope —
a non-empty effective scope in the claim's sense — `retrieve` issues no BM25
search at all and requests only `top_k` (not `top_k * 3`) candidates from the
dense search: the trace is exactly `[embed, denseSearch top_k]`. -/
theorem C6_counterexample :
    (retrieve envC6 "q" 1 none none true).2
      = [RagCall.embedText "q", RagCall.denseSearch 5 (QFilter.userOnly 1)] ∧
    ((retrieve envC6 "q" 1 none none true).2.all fun c =>
        match c with
        | RagCall.sparseSearch _ _ => false
        | _ => true) = true ∧
    envC6.rag_top_k = 5 ∧ 5 ≠ 5 * 3 := by
  decide

/-- C6 amended: when the document scope is non-empty, a dense and a sparse
BM25 search are both issued, each requesting `top_k * 3` candidates over the
same effective document ids, the results are fused with RankFusion (k=60) and
the top `top_k` fused ids are kept (then resolved against the store); when the
scope is empty and `search_all` is true, only a dense search with limit
`top_k` (scoped to the user) is ever issued and no BM25 search or fusion
occurs: over all oracle outcomes the call trace is one of `[embed]`,
`[embed, denseSearch top_k userOnly]`, or
`[embed, denseSearch top_k userOnly, fetchChunks ids]`, and in the ordinary
hit-returning case the result is the dense hits resolved in their own order. -/
theorem C6_amended {Vec : Type} (env : RagEnv Vec) (query : String)
    (user_id : Int) (doc_ids : List String) (top_k? : Option Nat)
    (search_all : Bool) (vec : Vec) (ref : Option String)
    (vector_hits : List QHit) (bm25_hits : List (String × ℚ))
    (rows : List ChunkRow)
    (hni : doc_ids.isEmpty = false)
    (hembed : env.embed query = .ok vec)
    (href : find_referenced_document env query user_id doc_ids = .ok ref)
    (hq : env.qdrant_search vec ((top_k?.getD env.rag_top_k) * 3)
        (search_filter_of user_id (search_ids_of ref doc_ids)) = .ok vector_hits)
    (hbm : bm25_search env query (search_ids_of ref doc_ids)
        ((top_k?.getD env.rag_top_k) * 3) = .ok bm25_hits)
    (hne : ((reciprocal_rank_fusion vector_hits bm25_hits 60).take
        (top_k?.getD env.rag_top_k)).isEmpty = false)
    (hfc : env.fetch_chunks ((reciprocal_rank_fusion vector_hits bm25_hits 60).take
        (top_k?.getD env.rag_top_k)) user_id = .ok rows) :
    retrieve env query user_id (some doc_ids) top_k? search_all =
      (resolve_sources ((reciprocal_rank_fusion vector_hits bm25_hits 60).take
          (top_k?.getD env.rag_top_k)) rows,
       [.embedText query, .fetchDocs doc_ids user_id,
        .denseSearch ((top_k?.getD env.rag_top_k) * 3)
          (search_filter_of user_id (search_ids_of ref doc_ids)),
        .sparseSearch ((top_k?.getD env.rag_top_k) * 3) (search_ids_of ref doc_ids),
        .fetchChunks ((reciprocal_rank_fusion vector_hits bm25_hits 60).take
          (top_k?.getD env.rag_top_k))]) ∧
    (∀ (dids : Option (List String)), (dids.getD []).isEmpty = true →
      (retrieve env query user_id dids top_k? true).2 = [RagCall.embedText query] ∨
      (retrieve env query user_id dids top_k? true).2
        = [RagCall.embedText query,
           RagCall.denseSearch (top_k?.getD env.rag_top_k) (QFilter.userOnly user_id)] ∨
      ∃ ids, (retrieve env query user_id dids top_k? true).2
        = [RagCall.embedText query,
           RagCall.denseSearch (top_k?.getD env.rag_top_k) (QFilter.userOnly user_id),
           RagCall.fetchChunks ids]) ∧
    (∀ (dids : Option (List String)) (vec₂ : Vec) (vh₂ : List QHit)
        (rows₂ : List ChunkRow),
      (dids.getD []).isEmpty = true →
      env.embed query = .ok vec₂ →
      env.qdrant_search vec₂ (top_k?.getD env.rag_top_k)
          (QFilter.userOnly user_id) = .ok vh₂ →
      (vh₂.map QHit.chunk_id).isEmpty = false →
      env.fetch_chunks (vh₂.filterMap QHit.chunk_id) user_id = .ok rows₂ →
      retrieve env query user_id dids top_k? true =
        (resolve_sources (vh₂.filterMap QHit.chunk_id) rows₂,
         [.embedText query,
          .denseSearch (top_k?.getD env.rag_top_k) (QFilter.userOnly user_id),
          .fetchChunks (vh₂.filterMap QHit.chunk_id)])) := by
  refine ⟨?_, ?_, ?_⟩
  · simp [retrieve, hni, hembed, href, hq, hbm, hne, hfc]
  · intro dids hempty
    rcases hE : env.embed query with e | vec₂
    · left
      simp [retrieve, hempty, hE]
    · rcases hQ : env.qdrant_search vec₂ (top_k?.getD env.rag_top_k)
          (QFilter.userOnly user_id) with e | vh₂
      · right; left
        simp [retrieve, hempty, hE, hQ]
      · by_cases hh : (vh₂.map QHit.chunk_id).isEmpty = true
        · right; left
          simp [retrieve, hempty, hE, hQ, hh]
        · rcases hF : env.fetch_chunks (vh₂.filterMap QHit.chunk_id) user_id
              with e | rows₂
          · right; right
            exact ⟨vh₂.filterMap QHit.chunk_id,
              by simp [retrieve, hempty, hE, hQ, hh, hF]⟩
          · right; right
            exact ⟨vh₂.filterMap QHit.chunk_id,
              by simp [retrieve, hempty, hE, hQ, hh, hF]⟩
  · intro dids vec₂ vh₂ rows₂ hempty hembed₂ hq₂ hhits hfc₂
    simp [retrieve, hempty, hembed₂, hq₂, hhits, hfc₂]

def envC6b : RagEnv Unit :=
  ⟨1, fun _ => .ok (), fun _ _ _ => .ok [⟨some "c1"⟩], fun _ _ => .ok [],
   fun _ _ => 0, fun _ => .ok ⟨["c1"], [["hello"]]⟩,
   fun corpus _ => corpus.map (fun _ => 1), fun _ _ => .ok [⟨"c1", "t", "f", 0, "d1"⟩]⟩

unseal Rat.add Rat.mul Rat.inv in
theorem C6_witness :
    retrieve envC6b "q" 1 (some ["d1"]) none false =
      (resolve_sources ((reciprocal_rank_fusion [⟨some "c1"⟩] [("c1", 1)] 60).take 1)
          [⟨"c1", "t", "f", 0, "d1"⟩],
       [.embedText "q", .fetchDocs ["d1"] 1,
        .denseSearch 3 (search_filter_of 1 (search_ids_of none ["d1"])),
        .sparseSearch 3 (search_ids_of none ["d1"]),
        .fetchChunks ((reciprocal_rank_fusion [⟨some "c1"⟩] [("c1", 1)] 60).take 1)]) :=
  (C6_amended envC6b "q" 1 ["d1"] none false () none [⟨some "c1"⟩] [("c1", 1)]
    [⟨"c1", "t", "f", 0, "d1"⟩] rfl rfl rfl rfl rfl (by decide) rfl).1

/-- Whether `doc`'s normalized filename shares a word with the query (the
token-overlap gate of the disambiguation loop). -/
def sharesWord (query : String) (doc : DocRow) : Bool :=
  (pySplit (pyLower query)).any
    (fun w => (pySplit (normalize_filename (doc.filename.getD ""))).contains w)

lemma frd_fold_some {Vec : Type} (env : RagEnv Vec) (query : String) :
    ∀ (docs : List DocRow) (acc : Option String × Nat) (d : String),
      (docs.foldl (frd_step env (pySplit (pyLower query)) (pyLower query)) acc).1
          = some d →
      acc.1 = some d ∨ ∃ doc ∈ docs, doc.document_id = d ∧
        normalize_filename (doc.filename.getD "") ≠ "" ∧
        sharesWord query doc = true ∧
        80 < env.fuzzMatch (normalize_filename (doc.filename.getD "")) (pyLower query) := by
  intro docs
  induction docs with
  | nil =>
    intro acc d h
    exact .inl h
  | cons doc rest ih =>
    intro acc d h
    simp only [List.foldl_cons] at h
    rcases ih _ d h with hacc | ⟨doc', hmem, hrest⟩
    · by_cases h1 : normalize_filename (doc.filename.getD "") = ""
      · rw [frd_step, if_pos h1] at hacc
        exact .inl hacc
      · by_cases h2 : ((pySplit (pyLower query)).any
            (fun w => (pySplit (normalize_filename (doc.filename.getD ""))).contains w)) = true
        · by_cases h3 : 80 < env.fuzzMatch (normalize_filename (doc.filename.getD ""))
              (pyLower query) ∧ acc.2 < env.fuzzMatch
              (normalize_filename (doc.filename.getD "")) (pyLower query)
          · rw [frd_step, if_neg h1] at hacc
            simp only [h2, if_true] at hacc
            rw [if_pos h3] at hacc
            refine .inr ⟨doc, List.mem_cons_self doc rest, ?_, h1, ?_, h3.1⟩
            · exact Option.some_inj.mp hacc
            · exact h2
          · rw [frd_step, if_neg h1] at hacc
            simp only [h2, if_true] at hacc
            rw [if_neg h3] at hacc
            exact .inl hacc
        · rw [frd_step, if_neg h1] at hacc
          simp only [h2] at hacc
          simp at hacc
          exact .inl hacc
    · exact .inr ⟨doc', List.mem_cons_of_mem doc hmem, hrest⟩

lemma frd_fold_no_shared {Vec : Type} (env : RagEnv Vec) (query : String) :
    ∀ (docs : List DocRow) (acc : Option String × Nat),
      (∀ doc ∈ docs, sharesWord query doc = false) →
      docs.foldl (frd_step env (pySplit (pyLower query)) (pyLower query)) acc = acc := by
  intro docs
  induction docs with
  | nil =>
    intro acc _
    rfl
  | cons doc rest ih =>
    intro acc hnone
    simp only [List.foldl_cons]
    have hstep : frd_step env (pySplit (pyLower query)) (pyLower query) acc doc = acc := by
      have hds : sharesWord query doc = false := hnone doc (List.mem_cons_self doc rest)
      rw [frd_step]
      by_cases h1 : normalize_filename (doc.filename.getD "") = ""
      · rw [if_pos h1]
      · rw [if_neg h1]
        unfold sharesWord at hds
        simp only [hds]
        simp
    rw [hstep]
    exact ih acc (fun d hd => hnone d (List.mem_cons_of_mem doc hd))

/-- C8: the name-disambiguation step narrows the scope to exactly one
document only when some candidate's normalized filename shares at least one
word with the query and its fuzzy score against the lowercased query exceeds
80; a query sharing no word with any candidate filename never narrows the
scope; and a match replaces the whole multi-document scope by that single
document (single-document filter). -/
theorem C8_name_disambiguation {Vec : Type} (env : RagEnv Vec) (query : String)
    (user_id : Int) (doc_ids : List String) (docs : List DocRow)
    (hdocs : env.fetch_docs doc_ids user_id = .ok docs) :
    (∀ d, find_referenced_document env query user_id doc_ids = .ok (some d) →
      ∃ doc ∈ docs, doc.document_id = d ∧
        normalize_filename (doc.filename.getD "") ≠ "" ∧
        sharesWord query doc = true ∧
        80 < env.fuzzMatch (normalize_filename (doc.filename.getD "")) (pyLower query)) ∧
    ((∀ doc ∈ docs, sharesWord query doc = false) →
      find_referenced_document env query user_id doc_ids = .ok none) ∧
    (∀ d, search_ids_of (some d) doc_ids = [d] ∧
      search_filter_of user_id [d] = QFilter.oneDoc user_id d) := by
  refine ⟨?_, ?_, fun d => ⟨rfl, rfl⟩⟩
  · intro d hfind
    unfold find_referenced_document at hfind
    rw [hdocs] at hfind
    by_cases hne : docs = []
    · subst hne
      simp at hfind
    · have hfold : (docs.foldl (frd_step env (pySplit (pyLower query)) (pyLower query))
          ((none : Option String), 0)).1 = some d := by
        simpa [hne] using hfind
      rcases frd_fold_some env query docs ((none : Option String), 0) d hfold with h | h
      · simp at h
      · exact h
  · intro hnoshare
    unfold find_referenced_document
    rw [hdocs]
    by_cases hne : docs = []
    · subst hne
      simp
    · have h := frd_fold_no_shared env query docs ((none : Option String), 0) hnoshare
      simp [hne, h]

def envC8 : RagEnv Unit :=
  ⟨2, fun _ => .ok (), fun _ _ _ => .ok [], fun _ _ =>
     .ok [⟨"d1", some "quarterly_report.pdf"⟩],
   fun _ _ => 95, fun _ => .ok ⟨[], []⟩, fun _ _ => [], fun _ _ => .ok []⟩

theorem C8_witness :
    ∃ doc ∈ [(⟨"d1", some "quarterly_report.pdf"⟩ : DocRow)],
      doc.document_id = "d1" ∧
      normalize_filename (doc.filename.getD "") ≠ "" ∧
      sharesWord "what does the Quarterly report say" doc = true ∧
      80 < envC8.fuzzMatch (normalize_filename (doc.filename.getD ""))
        (pyLower "what does the Quarterly report say") :=
  (C8_name_disambiguation envC8 "what does the Quarterly report say" 1 ["d1"]
      [⟨"d1", some "quarterly_report.pdf"⟩] rfl).1 "d1" rfl

def tokC2 : String → Nat := fun s => 700 * s.length
def sumOracleC2 : List ChatMsg → String := fun _ => "regenerated"
def msgsC2 : List StoredMsg :=
  [⟨1, "user", "bb", none⟩, ⟨2, "assistant", "a", none⟩, ⟨3, "user", "a", none⟩,
   ⟨4, "assistant", "a", none⟩, ⟨5, "user", "a", none⟩, ⟨6, "assistant", "a", none⟩,
   ⟨7, "user", "a", none⟩, ⟨8, "assistant", "a", none⟩]
def convC2 : ConvRow := ⟨some 6300, some "earlier summary", some 1, some 8⟩
def dbC2 : ChatDB := ⟨some convC2, msgsC2, 9⟩

unseal Rat.add Rat.mul Rat.inv in
/-- C2 counterexample: a conversation in the CachedSummary state whose recent
tokens exceed `0.8 * historyBudget` (here budget 5300, recent 4928 > 4240,
stored count 6300 over budget).  The next call does compress
(`didCompress = true`) but re-derives the split point from the full history:
with no new messages since the last compression the persisted
`summarized_up_to_id` is again 1 — equal to, not strictly later than, the
previous value. -/
theorem C2_counterexample :
    dbC2.conv = some convC2 ∧ convC2.summary = some "earlier summary" ∧
    convC2.summarized_up_to_id = some 1 ∧
    (0 : Int) < history_budget_of tokC2 "q" 0 ∧
    history_budget_of tokC2 "q" 0 < (convC2.token_count.getD 0 : Int) ∧
    ((history_budget_of tokC2 "q" 0 : ℚ) * (8 / 10)
        < (count_tokens tokC2 (recent_of dbC2 convC2) : ℚ)) ∧
    (get_managed_history tokC2 sumOracleC2 dbC2 "q" 0).2.1 = true ∧
    ((get_managed_history tokC2 sumOracleC2 dbC2 "q" 0).2.2.conv.map
        ConvRow.summarized_up_to_id) = some (some 1) := by
  decide

/-- The `summarized_up_to_id` persisted by a compression pass: the id of the
last message of the summarized first half of the trimmable prefix. -/
def new_upto_id (db : ChatDB) : Nat :=
  ((((db.msgs.take (db.msgs.length - PROTECT_LAST_N)).take
      (max 1 ((db.msgs.take (db.msgs.length - PROTECT_LAST_N)).length / 2))).getLast?).map
        StoredMsg.id).getD 0

lemma gen_summary_flag (tok : String → Nat) (summarize : List ChatMsg → String)
    (db : ChatDB) (hb_ : Int)
    (hne : (db.msgs.take (db.msgs.length - PROTECT_LAST_N)).isEmpty = false) :
    (generate_and_cache_summary tok summarize db hb_).2.1 = true := by
  unfold generate_and_cache_summary
  simp [hne]

lemma gen_summary_upto (tok : String → Nat) (summarize : List ChatMsg → String)
    (db : ChatDB) (hb_ : Int) (c : ConvRow) (hconv : db.conv = some c)
    (hne : (db.msgs.take (db.msgs.length - PROTECT_LAST_N)).isEmpty = false) :
    ((generate_and_cache_summary tok summarize db hb_).2.2.conv.map
        ConvRow.summarized_up_to_id) = some (some (new_upto_id db)) := by
  unfold generate_and_cache_summary new_upto_id
  simp [hne, hconv]

lemma new_upto_id_ge (db : ChatDB) (S j : Nat)
    (hlen : PROTECT_LAST_N < db.msgs.length)
    (hsorted : db.msgs.Pairwise (fun a b => a.id < b.id))
    (hj : j < max 1 ((db.msgs.length - PROTECT_LAST_N) / 2))
    (hS : ((db.msgs.take (db.msgs.length - PROTECT_LAST_N))[j]?).map StoredMsg.id
            = some S) :
    S ≤ new_upto_id db := by
  have hL1 : 1 ≤ db.msgs.length - PROTECT_LAST_N := by omega
  have htrimlen : (db.msgs.take (db.msgs.length - PROTECT_LAST_N)).length
      = db.msgs.length - PROTECT_LAST_N := by
    rw [List.length_take]
    omega
  have hmple : max 1 ((db.msgs.length - PROTECT_LAST_N) / 2)
      ≤ db.msgs.length - PROTECT_LAST_N :=
    max_le hL1 (Nat.div_le_self _ 2)
  have hm1 : 1 ≤ max 1 ((db.msgs.length - PROTECT_LAST_N) / 2) := le_max_left _ _
  have hm1lt : max 1 ((db.msgs.length - PROTECT_LAST_N) / 2) - 1
      < (db.msgs.take (db.msgs.length - PROTECT_LAST_N)).length := by
    rw [htrimlen]
    omega
  have hjlt : j < (db.msgs.take (db.msgs.length - PROTECT_LAST_N)).length := by
    rw [htrimlen]
    omega
  have hlast : new_upto_id db
      = (((db.msgs.take (db.msgs.length - PROTECT_LAST_N))[
          max 1 ((db.msgs.length - PROTECT_LAST_N) / 2) - 1]?).map StoredMsg.id).getD 0 := by
    unfold new_upto_id
    rw [htrimlen]
    rw [List.getLast?_eq_getElem?]
    rw [List.length_take]
    rw [htrimlen]
    rw [Nat.min_eq_left hmple]
    rw [List.getElem?_take]
    rw [if_pos (by omega)]
  have hE : new_upto_id db
      = ((db.msgs.take (db.msgs.length - PROTECT_LAST_N)).get
          ⟨max 1 ((db.msgs.length - PROTECT_LAST_N) / 2) - 1, hm1lt⟩).id := by
    rw [hlast, List.getElem?_eq_getElem hm1lt]
    simp [List.get_eq_getElem]
  have hSj : ((db.msgs.take (db.msgs.length - PROTECT_LAST_N)).get ⟨j, hjlt⟩).id = S := by
    rw [List.getElem?_eq_getElem hjlt] at hS
    simpa [List.get_eq_getElem] using hS
  have htrim_sorted : (db.msgs.take (db.msgs.length - PROTECT_LAST_N)).Pairwise
      (fun a b => a.id < b.id) :=
    hsorted.sublist (List.take_sublist _ _)
  rw [hE, ← hSj]
  rcases Nat.lt_or_ge j (max 1 ((db.msgs.length - PROTECT_LAST_N) / 2) - 1) with hlt | hge
  · exact le_of_lt ((List.pairwise_iff_getElem.mp htrim_sorted) j
      (max 1 ((db.msgs.length - PROTECT_LAST_N) / 2) - 1) hjlt hm1lt hlt)
  · have hj_eq : j = max 1 ((db.msgs.length - PROTECT_LAST_N) / 2) - 1 := by omega
    subst hj_eq
    exact le_refl _

/-- C2 amended: in the CachedSummary state, once recent tokens exceed
`0.8 * historyBudget`, the next call compresses (`didCompress = true`) and
persists a `summarized_up_to_id` no earlier than the previous one —
monotonically non-decreasing, but not necessarily strictly later: the split
midpoint is re-derived from the full history, and advances past the old value
only when enough new messages have arrived. -/
theorem C2_amended (tok : String → Nat) (summarize : List ChatMsg → String)
    (db : ChatDB) (c : ConvRow) (current_message : String) (rag_tokens : Nat)
    (s : String) (S j : Nat)
    (hconv : db.conv = some c)
    (hsum : c.summary = some s)
    (hupto : c.summarized_up_to_id = some S)
    (hb : 0 < history_budget_of tok current_message rag_tokens)
    (hover : history_budget_of tok current_message rag_tokens
              < (c.token_count.getD 0 : Int))
    (hrecent : (history_budget_of tok current_message rag_tokens : ℚ) * (8 / 10)
                < (count_tokens tok (recent_of db c) : ℚ))
    (hlen : PROTECT_LAST_N < db.msgs.length)
    (hsorted : db.msgs.Pairwise (fun a b => a.id < b.id))
    (hj : j < max 1 ((db.msgs.length - PROTECT_LAST_N) / 2))
    (hS : ((db.msgs.take (db.msgs.length - PROTECT_LAST_N))[j]?).map StoredMsg.id
            = some S) :
    (get_managed_history tok summarize db current_message rag_tokens).2.1 = true ∧
    ∃ newS, ((get_managed_history tok summarize db current_message rag_tokens).2.2.conv.map
        ConvRow.summarized_up_to_id) = some (some newS) ∧ S ≤ newS := by
  have hne : (db.msgs.take (db.msgs.length - PROTECT_LAST_N)).isEmpty = false := by
    cases hcase : db.msgs.take (db.msgs.length - PROTECT_LAST_N) with
    | nil =>
      have : (db.msgs.take (db.msgs.length - PROTECT_LAST_N)).length
          = db.msgs.length - PROTECT_LAST_N := by
        rw [List.length_take]
        omega
      rw [hcase] at this
      simp at this
      omega
    | cons a t => rfl
  have hred : get_managed_history tok summarize db current_message rag_tokens
      = generate_and_cache_summary tok summarize db
          (history_budget_of tok current_message rag_tokens) := by
    simp [get_managed_history, hconv, hsum, not_le.mpr hb, not_le.mpr hover,
      gt_iff_lt, hrecent]
  refine ⟨?_, new_upto_id db, ?_, ?_⟩
  · rw [hred]
    exact gen_summary_flag tok summarize db _ hne
  · rw [hred]
    exact gen_summary_upto tok summarize db _ c hconv hne
  · exact new_upto_id_ge db S j hlen hsorted hj hS

unseal Rat.add Rat.mul Rat.inv in
theorem C2_witness :
    (get_managed_history tokC2 sumOracleC2 dbC2 "q" 0).2.1 = true ∧
    ∃ newS, ((get_managed_history tokC2 sumOracleC2 dbC2 "q" 0).2.2.conv.map
        ConvRow.summarized_up_to_id) = some (some newS) ∧ 1 ≤ newS :=
  C2_amended tokC2 sumOracleC2 dbC2 convC2 "q" 0 "earlier summary" 1 0
    rfl rfl rfl (by decide) (by decide) (by decide) (by decide) (by decide)
    (by decide) (by decide)
